import Mathlib

/-!
Shallow embedding of the HalDeck key/page state-and-rendering engine
(`haldeck.py`): per-key state machines, the page-switch protocol with
press-origin tracking, the DisplayFloat debounce, the splash tiler
geometry, and initial-page selection.
-/

namespace HalDeck

/-- Supported key types (`class KeyTypes`). -/
inductive KeyTypes where
  | UNUSED
  | MOMENTARY
  | KEYBOARD
  | DISPLAY_FLOAT
deriving DecidableEq, Repr

/-- A Python value as stored in `Key.state`: a bool, a finite float
(modelled as a rational), NaN, an infinity, or `None`. -/
inductive PVal where
  | vbool (b : Bool)
  | vnum (q : ℚ)
  | vnan
  | vinf
  | vnone
deriving DecidableEq, Repr

/-- Python truthiness of a `Key.state` value (`if self.state:`);
note that NaN and infinities are truthy in Python. -/
def PVal.truthy : PVal → Bool
  | .vbool b => b
  | .vnum q => decide (q ≠ 0)
  | .vnan => true
  | .vinf => true
  | .vnone => false

/-- A sample read from the HAL float pin: absent (read failed / `None`),
NaN, infinite, or a finite value. -/
inductive Sample where
  | absent
  | nan
  | inf
  | val (q : ℚ)
deriving DecidableEq, Repr

/-- `_is_valid(v)`: not `None`, not NaN, not infinite. -/
def Sample.isValid : Sample → Bool
  | .val _ => true
  | _ => false

/-- The raw sample as assigned to `self.state` (`self.state = value`). -/
def Sample.toPVal : Sample → PVal
  | .absent => .vnone
  | .nan => .vnan
  | .inf => .vinf
  | .val q => .vnum q

/-- The configuration options of one key that the core reads
(`[page.N.key.XX]` section, with documented defaults). -/
structure KeyConfig where
  hasEnablePin : Bool
  kbKey : Bool
  minStep : ℚ
  minInterval : ℚ
  activeImage : Bool
  inactiveImage : Bool
  drawLabelOnImage : Bool
  activeBackground : String
  inactiveBackground : String
deriving DecidableEq, Repr

/-- The mutable state of one `Key` object, plus the external resources it
drives: the HAL `out` pin and the simulated-keyboard held flag. -/
structure KeyS where
  ktype : KeyTypes
  state : PVal
  enabled : Bool
  hasEnable : Bool
  kbKey : Bool
  halOut : Bool
  kbHeld : Bool
  lastGood : Option ℚ
  lastUpdateTs : ℚ
  minStep : ℚ
  minInterval : ℚ
  activeImage : Bool
  inactiveImage : Bool
  drawLabelOnImage : Bool
  activeBackground : String
  inactiveBackground : String
deriving DecidableEq, Repr

/-- The `enabled` value assigned by the per-type branches of
`Key.__init__` (before the display-float block overrides it). -/
def init_enabled0 : KeyTypes → Bool
  | .MOMENTARY => true
  | .KEYBOARD => true
  | _ => false

/-- The `hasEnable` value assigned by the per-type branches of
`Key.__init__`. -/
def init_hasEnable (t : KeyTypes) (c : KeyConfig) : Bool :=
  match t with
  | .MOMENTARY => c.hasEnablePin
  | _ => false

/-- `Key.__init__`: state starts `False`; `enabled` is `True` for
momentary and keyboard keys, `False` otherwise, then overridden to
`True` for display-float keys; only momentary keys may have an enable
pin; float bookkeeping starts at `None` / `0.0`. -/
def mkKey (t : KeyTypes) (c : KeyConfig) : KeyS :=
  { ktype := t
    state := .vbool false
    enabled := if t = .DISPLAY_FLOAT then true else init_enabled0 t
    hasEnable := init_hasEnable t c
    kbKey := c.kbKey
    halOut := false
    kbHeld := false
    lastGood := none
    lastUpdateTs := 0
    minStep := c.minStep
    minInterval := c.minInterval
    activeImage := c.activeImage
    inactiveImage := c.inactiveImage
    drawLabelOnImage := c.drawLabelOnImage
    activeBackground := c.activeBackground
    inactiveBackground := c.inactiveBackground }

/-- `Key.reset()`: in the `try` block a momentary key writes its `out`
pin to `False` and a keyboard key whose state is truthy releases its
configured key; `releaseFails` models any exception raised there (the
external effect then does not happen, the exception is caught). The
`finally` block always sets `state` to `False` and redraws; the returned
Bool is the redraw. -/
def reset (releaseFails : Bool) (k : KeyS) : KeyS × Bool :=
  let k1 :=
    match k.ktype with
    | .MOMENTARY => if releaseFails then k else { k with halOut := false }
    | .KEYBOARD =>
        if k.state.truthy then
          (if releaseFails || !k.kbKey then k else { k with kbHeld := false })
        else k
    | _ => k
  ({ k1 with state := .vbool false }, true)

/-- `Key.key_change(key_state)`: no-op when disabled; momentary keys
drive the `out` pin and their visual state; keyboard keys press/release
the simulated key when one is configured; display-float and unused keys
ignore input. The returned Bool is whether the image was updated. -/
def key_change (pressed : Bool) (k : KeyS) : KeyS × Bool :=
  if !k.enabled then (k, false)
  else
    match k.ktype with
    | .MOMENTARY => ({ k with halOut := pressed, state := .vbool pressed }, true)
    | .KEYBOARD =>
        if k.kbKey then ({ k with kbHeld := pressed, state := .vbool pressed }, true)
        else (k, false)
    | .DISPLAY_FLOAT => (k, false)
    | .UNUSED => (k, false)

/-- `Key.state_poll()`: momentary keys mirror the `in` pin and the
optional enable pin; display-float keys sample the value pin at time
`now` and apply the min-step / min-interval debounce, assigning the raw
sample to `state` on any redraw. The returned Bool is the redraw. -/
def state_poll (inState enableStatePin : Bool) (now : ℚ) (sample : Sample)
    (k : KeyS) : KeyS × Bool :=
  match k.ktype with
  | .MOMENTARY =>
      let enableState := if k.hasEnable then enableStatePin else true
      if k.enabled ≠ enableState ∨ k.state ≠ PVal.vbool inState then
        ({ k with state := .vbool inState, enabled := enableState }, true)
      else (k, false)
  | .DISPLAY_FLOAT =>
      let accept : Bool :=
        match sample with
        | .val q =>
            match k.lastGood with
            | none => true
            | some g => decide (k.minStep ≤ |q - g|)
        | _ => false
      let k1 :=
        match sample with
        | .val q => if accept then { k with lastGood := some q } else k
        | _ => k
      if accept || decide (k.minInterval ≤ now - k.lastUpdateTs) then
        ({ k1 with lastUpdateTs := now, state := sample.toPVal }, true)
      else (k1, false)
  | _ => (k, false)

/-- The observable shape of one rendered key image
(`Key.render_key_image`): whether an image file is used, the flat
background color otherwise, whether label text is drawn, and whether the
disabled overlay (70% blend toward black plus Gaussian blur) is
applied. -/
structure RenderDesc where
  usesImage : Bool
  background : String
  labelDrawn : Bool
  overlayApplied : Bool
deriving DecidableEq, Repr

/-- `Key.render_key_image()`: unused keys never use an image and force a
black background; the image file is chosen by state; with no image a
flat background is drawn with label text except for unused keys; the
disabled overlay is applied exactly when `enabled` is false. -/
def render_key_image (k : KeyS) : RenderDesc :=
  let background :=
    if k.ktype = .UNUSED then "black"
    else if k.state.truthy then k.activeBackground else k.inactiveBackground
  let imgFile : Bool :=
    if k.ktype = .UNUSED then false
    else if k.state.truthy then k.activeImage else k.inactiveImage
  if imgFile then
    { usesImage := true, background := background,
      labelDrawn := k.drawLabelOnImage, overlayApplied := !k.enabled }
  else
    { usesImage := false, background := background,
      labelDrawn := decide (k.ktype ≠ .UNUSED), overlayApplied := !k.enabled }

/-- One operation applied to a key by the engine. -/
inductive KOp where
  | change (pressed : Bool)
  | poll (inS enS : Bool) (now : ℚ) (sample : Sample)
  | doReset (fail : Bool)

/-- Apply one operation to a key (discarding the redraw flag). -/
def applyOp (k : KeyS) : KOp → KeyS
  | .change p => (key_change p k).1
  | .poll a b t s => (state_poll a b t s k).1
  | .doReset f => (reset f k).1

/-- Apply a sequence of operations to a key. -/
def applyOps (ops : List KOp) (k : KeyS) : KeyS := ops.foldl applyOp k

/-- Run `state_poll` over a timed sample trace on a display-float key,
collecting `(time, displayed value)` for every poll that redrew. -/
def poll_run (polls : List (ℚ × Sample)) (k : KeyS) : KeyS × List (ℚ × PVal) :=
  polls.foldl
    (fun acc p =>
      let r := state_poll false false p.1 p.2 acc.1
      (r.1, acc.2 ++ (if r.2 then [(p.1, r.1.state)] else [])))
    (k, [])

/-! ## The press-origin table (a Python dict keyed by `(deck_id, key)`) -/

/-- `d[k]` lookup (first matching entry). -/
def dGet (dk : ℕ × ℕ) : List ((ℕ × ℕ) × ℤ) → Option ℤ
  | [] => none
  | (k, v) :: t => if k = dk then some v else dGet dk t

/-- `d[k] = v`: replace the entry if present, else append. -/
def dInsert (dk : ℕ × ℕ) (v : ℤ) : List ((ℕ × ℕ) × ℤ) → List ((ℕ × ℕ) × ℤ)
  | [] => [(dk, v)]
  | (k, w) :: t => if k = dk then (dk, v) :: t else (k, w) :: dInsert dk v t

/-- `d.pop(k, default)` without the default: the removed value (if any)
and the remaining dict. -/
def dPop (dk : ℕ × ℕ) : List ((ℕ × ℕ) × ℤ) → Option ℤ × List ((ℕ × ℕ) × ℤ)
  | [] => (none, [])
  | (k, v) :: t =>
      if k = dk then (some v, t)
      else
        let r := dPop dk t
        (r.1, (k, v) :: r.2)

/-! ## The page registry (`keys_by_page`, a Python dict keyed by page) -/

/-- `keys_by_page[p]` lookup. -/
def pGet (p : ℤ) : List (ℤ × List KeyS) → Option (List KeyS)
  | [] => none
  | (q, v) :: t => if q = p then some v else pGet p t

/-- `keys_by_page[p] = v`. -/
def pSet (p : ℤ) (v : List KeyS) : List (ℤ × List KeyS) → List (ℤ × List KeyS)
  | [] => [(p, v)]
  | (q, w) :: t => if q = p then (p, v) :: t else (q, w) :: pSet p v t

/-- The global mutable state of the engine: the active page pointer, the
press-origin table, the per-page key lists, the set of splash pages, and
the page-feedback HAL pin. -/
structure DeckSys where
  currentPage : ℤ
  pressOrigin : List ((ℕ × ℕ) × ℤ)
  keysByPage : List (ℤ × List KeyS)
  splashPages : List ℤ
  halPageCurrent : ℤ
deriving DecidableEq, Repr

/-- A render pushed to the device surface during a page switch:
the redraw done by a key's `reset`, the push of a splash tile set, or
the `update_key_image` of one key of the newly shown page. -/
inductive REv where
  | resetRender (page : ℤ) (idx : ℕ)
  | splashPush (page : ℤ)
  | keyUpdate (page : ℤ) (idx : ℕ)
deriving DecidableEq, Repr

/-- `MAX_PAGES = 20`. -/
def MAX_PAGES : ℤ := 20

/-- `switch_to_page(new_page, force)`: reject out-of-range targets; reset
every key of the old page (each redrawing); clear the press-origin table;
then show the splash tiles, or skip same-page non-forced requests, or
log-and-return for unconfigured targets, or set the pointer, publish the
feedback pin and update every key of the new page. Returns the new state
and the renders pushed. -/
def switch_to_page (newPage : ℤ) (force : Bool) (s : DeckSys) : DeckSys × List REv :=
  if newPage < 1 ∨ newPage > MAX_PAGES then (s, [])
  else
    let old := s.currentPage
    let kbp :=
      match pGet old s.keysByPage with
      | some ks => pSet old (ks.map fun k => (reset false k).1) s.keysByPage
      | none => s.keysByPage
    let resetEvs :=
      match pGet old s.keysByPage with
      | some ks => (List.range ks.length).map (REv.resetRender old)
      | none => []
    let s1 : DeckSys := { s with keysByPage := kbp, pressOrigin := [] }
    if newPage ∈ s.splashPages then
      ({ s1 with currentPage := newPage, halPageCurrent := newPage },
       resetEvs ++ [REv.splashPush newPage])
    else
      match pGet newPage s1.keysByPage with
      | none => (s1, resetEvs)
      | some ks2 =>
          if newPage = old ∧ force = false then (s1, resetEvs)
          else
            ({ s1 with currentPage := newPage, halPageCurrent := newPage },
             resetEvs ++ (List.range ks2.length).map (REv.keyUpdate newPage))

/-- `key_change_callback(deck, key, state)`: on press, record the current
page in the press-origin table and target the current page; on release,
pop the recorded origin, falling back to the current page; then route the
event to the key of the target page when it exists. Returns the new
state, the resolved target page, and whether the event was routed. -/
def key_change_callback (deckId key : ℕ) (state : Bool) (s : DeckSys) :
    DeckSys × ℤ × Bool :=
  let dk := (deckId, key)
  let po_target : List ((ℕ × ℕ) × ℤ) × ℤ :=
    if state then (dInsert dk s.currentPage s.pressOrigin, s.currentPage)
    else
      let r := dPop dk s.pressOrigin
      (r.2, r.1.getD s.currentPage)
  let targetPage := po_target.2
  let routed : List (ℤ × List KeyS) × Bool :=
    match pGet targetPage s.keysByPage with
    | some ks =>
        match ks[key]? with
        | some kobj => (pSet targetPage (ks.set key (key_change state kobj).1) s.keysByPage, true)
        | none => (s.keysByPage, false)
    | none => (s.keysByPage, false)
  ({ s with pressOrigin := po_target.1, keysByPage := routed.1 }, targetPage, routed.2)

/-- `handle_key_event(deck, key_index, state)`: the polling-fallback
("VM workaround") twin of `key_change_callback`, transcribed from its own
source body: identical press/release resolution and routing. -/
def handle_key_event (deckId keyIndex : ℕ) (state : Bool) (s : DeckSys) :
    DeckSys × ℤ × Bool :=
  let dk := (deckId, keyIndex)
  let po_target : List ((ℕ × ℕ) × ℤ) × ℤ :=
    if state then (dInsert dk s.currentPage s.pressOrigin, s.currentPage)
    else
      let r := dPop dk s.pressOrigin
      (r.2, r.1.getD s.currentPage)
  let targetPage := po_target.2
  let routed : List (ℤ × List KeyS) × Bool :=
    match pGet targetPage s.keysByPage with
    | some ks =>
        match ks[keyIndex]? with
        | some kobj => (pSet targetPage (ks.set keyIndex (key_change state kobj).1) s.keysByPage, true)
        | none => (s.keysByPage, false)
    | none => (s.keysByPage, false)
  ({ s with pressOrigin := po_target.1, keysByPage := routed.1 }, targetPage, routed.2)

/-! ## Splash tiler (`load_splash_image`) -/

/-- An axis-aligned crop rectangle, as passed to `Image.crop`. -/
structure Rect where
  left : ℕ
  top : ℕ
  right : ℕ
  bottom : ℕ
deriving DecidableEq, Repr

/-- The geometry computed by `load_splash_image`: the full virtual canvas
(including bezel gaps), the scaled image size, and the centering offsets
of the scaled image on the solid-background canvas. -/
structure SplashLayout where
  fullW : ℕ
  fullH : ℕ
  newW : ℕ
  newH : ℕ
  offX : ℕ
  offY : ℕ
deriving DecidableEq, Repr

/-- The scale-to-fit branch of `load_splash_image`: when the image ratio
`img_w/img_h` exceeds the canvas ratio `full_w/full_h`, fit to width and
truncate the height (`int(full_w / img_ratio)`); otherwise fit to height
and truncate the width (`int(full_h * img_ratio)`). -/
def fit_wh (fullW fullH imgW imgH : ℕ) : ℕ × ℕ :=
  if (fullW : ℚ) / (fullH : ℚ) < (imgW : ℚ) / (imgH : ℚ) then
    (fullW, (⌊(fullW : ℚ) / ((imgW : ℚ) / (imgH : ℚ))⌋).toNat)
  else
    ((⌊(fullH : ℚ) * ((imgW : ℚ) / (imgH : ℚ))⌋).toNat, fullH)

/-- The scaling/centering part of `load_splash_image`: canvas size
`cols*key_width + (cols-1)*spacing_x` by `rows*key_height +
(rows-1)*spacing_y`; fit the image to the canvas preserving aspect ratio
(fit to width when the image ratio exceeds the canvas ratio, else fit to
height, truncating the other axis); center with integer-halved offsets. -/
def load_splash_layout (rows cols keyW keyH spacingX spacingY imgW imgH : ℕ) :
    SplashLayout :=
  let fullW := cols * keyW + spacingX * (cols - 1)
  let fullH := rows * keyH + spacingY * (rows - 1)
  let wh : ℕ × ℕ := fit_wh fullW fullH imgW imgH
  { fullW := fullW, fullH := fullH, newW := wh.1, newH := wh.2,
    offX := (fullW - wh.1) / 2, offY := (fullH - wh.2) / 2 }

/-- The crop rectangle of tile `(r, c)`: left/top at
`c*(key_width+spacing_x)`, `r*(key_height+spacing_y)`, size key_width by
key_height. -/
def splash_tile (keyW keyH spacingX spacingY r c : ℕ) : Rect :=
  { left := c * (keyW + spacingX)
    top := r * (keyH + spacingY)
    right := c * (keyW + spacingX) + keyW
    bottom := r * (keyH + spacingY) + keyH }

/-- The tile map built by the splitting loop of `load_splash_image`:
for every `row < rows` and `col < cols`, key index `row*cols + col` maps
to its crop rectangle. -/
def splash_tiles (rows cols keyW keyH spacingX spacingY : ℕ) : List (ℕ × Rect) :=
  (List.range rows).flatMap fun r =>
    (List.range cols).map fun c =>
      (r * cols + c, splash_tile keyW keyH spacingX spacingY r c)

/-! ## Initial page selection (`__main__`) -/

/-- Startup page computation: `configured_pages` gets page 1 added when
neither normal nor splash pages are configured; then
`initial_page = min(keys_by_page.keys()) if keys_by_page else 1`, where
`keys_by_page` is keyed by exactly the configured normal pages. -/
def initial_page (configuredPages splashPageNums : Finset ℕ) : ℕ :=
  let cp := if configuredPages = ∅ ∧ splashPageNums = ∅ then {1} else configuredPages
  if h : cp.Nonempty then cp.min' h else 1

/-- Modelled from the spec: "The currently-active page pointer starts at
the lowest normal-or-splash page number found in configuration (default 1
if none configured)" — stated for comparison with `initial_page`, which
is the embedding of the source. -/
def initial_page_spec (configuredPages splashPageNums : Finset ℕ) : ℕ :=
  if h : (configuredPages ∪ splashPageNums).Nonempty then
    (configuredPages ∪ splashPageNums).min' h
  else 1

/-! ## Concrete fixtures -/

/-- A default key configuration (the documented option defaults). -/
def cfg0 : KeyConfig :=
  { hasEnablePin := false, kbKey := true, minStep := 1/100, minInterval := 1/10,
    activeImage := false, inactiveImage := false, drawLabelOnImage := false,
    activeBackground := "white", inactiveBackground := "black" }

/-- The configuration of the C5 debounce scenario:
`min_step = 0.5`, `min_interval = 1.0`. -/
def c5cfg : KeyConfig := { cfg0 with minStep := 1/2, minInterval := 1 }

/-- The C5 sample trace: values `1.0, 1.2, 1.6` then `1.6` repeated,
sampled every `0.1 s` from `t = 10.0` to `t = 11.2`. -/
def c5polls : List (ℚ × Sample) :=
  [(10, .val 1), (101/10, .val (6/5)), (51/5, .val (8/5)), (103/10, .val (8/5)),
   (52/5, .val (8/5)), (21/2, .val (8/5)), (53/5, .val (8/5)), (107/10, .val (8/5)),
   (54/5, .val (8/5)), (109/10, .val (8/5)), (11, .val (8/5)), (111/10, .val (8/5)),
   (56/5, .val (8/5))]

/-- A display-float key holding a last good value of `5.0`, displayed
value `5.0`, with `min_interval = 1.0` and last redraw at `t = 0`. -/
def c4key : KeyS :=
  { mkKey .DISPLAY_FLOAT cfg0 with
    lastGood := some 5, state := .vnum 5, minInterval := 1 }

/-- A display-float key whose displayed value is `5.0`. -/
def c7key : KeyS := { mkKey .DISPLAY_FLOAT cfg0 with state := .vnum 5 }

/-- A momentary key currently pressed (state true, `out` pin high). -/
def kC2 : KeyS := { mkKey .MOMENTARY cfg0 with state := .vbool true, halOut := true }

/-- A system sitting on normal page 1, whose only key is held down, with
one press-origin entry outstanding. -/
def sC2 : DeckSys :=
  { currentPage := 1, pressOrigin := [((0, 0), 1)], keysByPage := [(1, [kC2])],
    splashPages := [], halPageCurrent := 1 }

/-- A system on normal page 1 with an outstanding press-origin entry for
page 2; page 3 is neither normal nor splash. -/
def sC3 : DeckSys :=
  { currentPage := 1, pressOrigin := [((0, 0), 2)], keysByPage := [(1, [kC2])],
    splashPages := [], halPageCurrent := 1 }

/-- A system on page 4 with a press recorded on page 2 (a page switch
happened while the key was held). -/
def sC1 : DeckSys :=
  { currentPage := 4, pressOrigin := [((0, 0), 2)],
    keysByPage := [(2, [mkKey .MOMENTARY cfg0]), (4, [mkKey .MOMENTARY cfg0])],
    splashPages := [], halPageCurrent := 4 }

/-! ## Helper lemmas -/

lemma reset_redraw (f : Bool) (k : KeyS) : (reset f k).2 = true := rfl

lemma reset_state (f : Bool) (k : KeyS) : (reset f k).1.state = PVal.vbool false := rfl

lemma reset_ktype (f : Bool) (k : KeyS) : (reset f k).1.ktype = k.ktype := by
  rcases k with ⟨t, st, en, he, kb, ho, kh, lg, ts, ms, mi, ai, ii, dl, ab, ib⟩
  cases t <;> cases f <;> simp only [reset] <;> split_ifs <;> rfl

lemma reset_enabled (f : Bool) (k : KeyS) : (reset f k).1.enabled = k.enabled := by
  rcases k with ⟨t, st, en, he, kb, ho, kh, lg, ts, ms, mi, ai, ii, dl, ab, ib⟩
  cases t <;> cases f <;> simp only [reset] <;> split_ifs <;> rfl

lemma reset_idem (f f2 : Bool) (k : KeyS) :
    (reset f2 ((reset f k).1)).1.state = PVal.vbool false ∧
    (reset f2 ((reset f k).1)).1.enabled = k.enabled := by
  refine ⟨reset_state _ _, ?_⟩
  rw [reset_enabled, reset_enabled]

lemma reset_reset (f : Bool) (k : KeyS) :
    (reset f ((reset f k).1)).1 = (reset f k).1 := by
  rcases k with ⟨t, st, en, he, kb, ho, kh, lg, ts, ms, mi, ai, ii, dl, ab, ib⟩
  cases t <;> cases f <;> simp only [reset, PVal.truthy] <;> split_ifs <;> simp_all

lemma dPop_fst (dk : ℕ × ℕ) (d : List ((ℕ × ℕ) × ℤ)) :
    (dPop dk d).1 = dGet dk d := by
  induction d with
  | nil => rfl
  | cons h t ih =>
      rcases h with ⟨k, v⟩
      by_cases hk : k = dk <;> simp [dPop, dGet, hk, ih]

lemma dPop_none (dk : ℕ × ℕ) (d : List ((ℕ × ℕ) × ℤ))
    (h : dGet dk d = none) : (dPop dk d).2 = d := by
  induction d with
  | nil => rfl
  | cons hd t ih =>
      rcases hd with ⟨k, v⟩
      by_cases hk : k = dk
      · simp [dGet, hk] at h
      · simp [dGet, hk] at h
        simp [dPop, hk, ih h]

lemma pGet_pSet_self (p : ℤ) (v : List KeyS) (l : List (ℤ × List KeyS)) :
    pGet p (pSet p v l) = some v := by
  induction l with
  | nil => simp [pGet, pSet]
  | cons hd t ih =>
      rcases hd with ⟨q, w⟩
      by_cases hq : q = p <;> simp [pGet, pSet, hq, ih]

lemma pGet_pSet_ne (p q : ℤ) (v : List KeyS) (l : List (ℤ × List KeyS))
    (h : q ≠ p) : pGet q (pSet p v l) = pGet q l := by
  induction l with
  | nil => simp [pGet, pSet, Ne.symm h]
  | cons hd t ih =>
      rcases hd with ⟨r, w⟩
      by_cases hr : r = p
      · subst hr
        simp [pGet, pSet, h, Ne.symm h]
      · by_cases hrq : r = q
        · subst hrq
          simp [pGet, pSet, hr, h]
        · simp [pGet, pSet, hr, hrq, ih]

/-! ## Claim C6 -/

/-- C6: for every key of every type and every prior state, `reset()` is
idempotent (a second call starting from the post-reset state produces the
same state, and in any case leaves state false and enabled unchanged),
always leaves state false, leaves the enabled flag unchanged, and
completes the state reset and redraw even when releasing external
resources fails (`f = true` models a failing HAL write or keyboard
release). -/
theorem haldeck_C6 (k : KeyS) (f : Bool) :
    (reset f k).2 = true ∧
    (reset f k).1.state = PVal.vbool false ∧
    (reset f k).1.enabled = k.enabled ∧
    (reset f ((reset f k).1)).1 = (reset f k).1 ∧
    ∀ f2 : Bool,
      (reset f2 ((reset f k).1)).2 = true ∧
      (reset f2 ((reset f k).1)).1.state = PVal.vbool false ∧
      (reset f2 ((reset f k).1)).1.enabled = k.enabled :=
  ⟨reset_redraw f k, reset_state f k, reset_enabled f k, reset_reset f k,
   fun f2 => ⟨reset_redraw f2 _, (reset_idem f f2 k).1, (reset_idem f f2 k).2⟩⟩

/-- C6 witness: `reset` on a concrete pressed momentary key under a
simulated release failure still redraws, clears state and keeps the
enabled flag. -/
theorem haldeck_C6_witness :
    (reset true kC2).2 = true ∧
    (reset true kC2).1.state = PVal.vbool false ∧
    (reset true kC2).1.enabled = kC2.enabled :=
  ⟨(haldeck_C6 kC2 true).1, (haldeck_C6 kC2 true).2.1, (haldeck_C6 kC2 true).2.2.1⟩

/-! ## Claim C7 -/

/-- C7 counterexample: for a DisplayFloat key displaying `5.0`, `reset()`
does not leave the displayed value unchanged — it overwrites the state
with boolean false. -/
theorem haldeck_C7_counterexample :
    c7key.ktype = KeyTypes.DISPLAY_FLOAT ∧
    c7key.state = PVal.vnum 5 ∧
    (reset false c7key).1.state ≠ c7key.state := by decide

/-- C7 amended: for a DisplayFloat key, `reset()` sets the key's state to
boolean false like every other key type, discarding the last displayed
numeric value, and forces a redraw. -/
theorem haldeck_C7_amended (k : KeyS) (f : Bool)
    (_h : k.ktype = KeyTypes.DISPLAY_FLOAT) :
    (reset f k).1.state = PVal.vbool false ∧ (reset f k).2 = true :=
  ⟨reset_state f k, reset_redraw f k⟩

/-- C7 witness: the amended claim at the concrete DisplayFloat key. -/
theorem haldeck_C7_witness :
    (reset false c7key).1.state = PVal.vbool false ∧ (reset false c7key).2 = true :=
  haldeck_C7_amended c7key false rfl

/-! ## Claim C4 -/

/-- C4 (code bug evaluated at the failing input): a DisplayFloat key with
last good value `5.0`, displayed value `5.0`, `min_interval = 1.0` and
last redraw at `t = 0` polls a NaN sample at `t = 2`. The last good value
is unchanged and the step path does not fire, as the claim says, but the
interval fallback redraw displays the NaN sample itself
(`self.state = value`), not the prior valid value `5.0`. -/
theorem haldeck_C4 :
    c4key.ktype = KeyTypes.DISPLAY_FLOAT ∧
    c4key.lastGood = some 5 ∧
    c4key.state = PVal.vnum 5 ∧
    Sample.isValid Sample.nan = false ∧
    (state_poll false false 2 Sample.nan c4key).1.lastGood = some 5 ∧
    (state_poll false false 2 Sample.nan c4key).2 = true ∧
    (state_poll false false 2 Sample.nan c4key).1.state = PVal.vnan ∧
    (state_poll false false 2 Sample.nan c4key).1.state ≠ PVal.vnum 5 := by
  refine ⟨rfl, rfl, rfl, rfl, ?_, ?_, ?_, ?_⟩
  · norm_num [state_poll, c4key, mkKey, cfg0, Sample.isValid, Sample.toPVal]
  · norm_num [state_poll, c4key, mkKey, cfg0, Sample.isValid, Sample.toPVal]
  · norm_num [state_poll, c4key, mkKey, cfg0, Sample.isValid, Sample.toPVal]
  · norm_num [state_poll, c4key, mkKey, cfg0, Sample.isValid, Sample.toPVal]
    decide

/-! ## Claim C10 -/

lemma applyOp_unused (k : KeyS) (o : KOp) (ht : k.ktype = KeyTypes.UNUSED)
    (he : k.enabled = false) :
    (applyOp k o).ktype = KeyTypes.UNUSED ∧ (applyOp k o).enabled = false := by
  cases o with
  | change p => simp [applyOp, key_change, he, ht]
  | poll a b t s => simp [applyOp, state_poll, ht, he]
  | doReset f =>
      constructor
      · rw [applyOp, reset_ktype]; exact ht
      · rw [applyOp, reset_enabled]; exact he

lemma applyOps_unused (ops : List KOp) (k : KeyS)
    (ht : k.ktype = KeyTypes.UNUSED) (he : k.enabled = false) :
    (applyOps ops k).ktype = KeyTypes.UNUSED ∧ (applyOps ops k).enabled = false := by
  induction ops generalizing k with
  | nil => exact ⟨ht, he⟩
  | cons o t ih =>
      have h := applyOp_unused k o ht he
      exact ih (applyOp k o) h.1 h.2

lemma render_unused (k : KeyS) (ht : k.ktype = KeyTypes.UNUSED)
    (he : k.enabled = false) :
    render_key_image k =
      { usesImage := false, background := "black",
        labelDrawn := false, overlayApplied := true } := by
  simp [render_key_image, ht, he]

/-- C10: an Unused key is constructed with `enabled = false`; no sequence
of key operations (press/release events, polls, resets) ever sets it
true; and every render of the key carries the disabled overlay on the
fixed black background, with no image and no label. -/
theorem haldeck_C10 (c : KeyConfig) (ops : List KOp) :
    (mkKey KeyTypes.UNUSED c).enabled = false ∧
    (applyOps ops (mkKey KeyTypes.UNUSED c)).enabled = false ∧
    render_key_image (applyOps ops (mkKey KeyTypes.UNUSED c)) =
      { usesImage := false, background := "black",
        labelDrawn := false, overlayApplied := true } := by
  have h0 : (mkKey KeyTypes.UNUSED c).ktype = KeyTypes.UNUSED := rfl
  have h1 : (mkKey KeyTypes.UNUSED c).enabled = false := rfl
  have h := applyOps_unused ops (mkKey KeyTypes.UNUSED c) h0 h1
  exact ⟨h1, h.2, render_unused _ h.1 h.2⟩

/-- C10 witness: the property applied at the default configuration and a
concrete operation sequence. -/
theorem haldeck_C10_witness :
    (applyOps [KOp.change true, KOp.doReset false] (mkKey KeyTypes.UNUSED cfg0)).enabled = false ∧
    render_key_image (applyOps [KOp.change true, KOp.doReset false] (mkKey KeyTypes.UNUSED cfg0)) =
      { usesImage := false, background := "black",
        labelDrawn := false, overlayApplied := true } :=
  ⟨(haldeck_C10 cfg0 [KOp.change true, KOp.doReset false]).2.1,
   (haldeck_C10 cfg0 [KOp.change true, KOp.doReset false]).2.2⟩

/-! ## Claim C9 -/

/-- C9 counterexample: with normal page 7 and splash page 5 configured,
the code starts on page 7 (the lowest *normal* page), while the claim
says the lowest normal-or-splash page, 5. -/
theorem haldeck_C9_counterexample :
    initial_page {7} {5} = 7 ∧
    initial_page_spec {7} {5} = 5 ∧
    initial_page {7} {5} ≠ initial_page_spec {7} {5} := by decide

/-- C9 amended: at startup the active page pointer is set to the lowest
page number among the configured *normal* pages, and to 1 when no normal
page is configured (splash pages are not considered; in particular with
no configuration at all the pointer starts at 1). -/
theorem haldeck_C9_amended (normal splash : Finset ℕ) :
    (∀ h : normal.Nonempty, initial_page normal splash = normal.min' h) ∧
    (normal = ∅ → initial_page normal splash = 1) := by
  constructor
  · intro h
    have hne : ¬(normal = ∅ ∧ splash = ∅) := fun hc =>
      Finset.nonempty_iff_ne_empty.mp h hc.1
    simp only [initial_page, if_neg hne]
    rw [dif_pos h]
  · intro h
    by_cases hs : splash = ∅
    · simp [initial_page, h, hs]
    · simp [initial_page, h, hs]

/-- C9 witness: a splash-only configuration still starts at page 1. -/
theorem haldeck_C9_witness : initial_page ∅ {10} = 1 :=
  (haldeck_C9_amended ∅ {10}).2 rfl

/-! ## Claim C5 -/

lemma rat_abs_eval (q : ℚ) : |q| = if 0 ≤ q then q else -q := by
  by_cases h : 0 ≤ q
  · rw [if_pos h, abs_of_nonneg h]
  · rw [if_neg h, abs_of_neg (lt_of_not_ge h)]

lemma state_poll_df_accept (k : KeyS) (now q : ℚ)
    (ht : k.ktype = KeyTypes.DISPLAY_FLOAT)
    (hacc : k.lastGood = none ∨ ∃ g, k.lastGood = some g ∧ k.minStep ≤ |q - g|) :
    (state_poll false false now (Sample.val q) k).1.lastGood = some q ∧
    (state_poll false false now (Sample.val q) k).2 = true ∧
    (state_poll false false now (Sample.val q) k).1.state = PVal.vnum q ∧
    (state_poll false false now (Sample.val q) k).1.lastUpdateTs = now := by
  rcases hacc with h | ⟨g, hg, hstep⟩
  · simp [state_poll, ht, h, Sample.toPVal]
  · simp [state_poll, ht, hg, hstep, Sample.toPVal]

lemma state_poll_df_small (k : KeyS) (now q g : ℚ)
    (ht : k.ktype = KeyTypes.DISPLAY_FLOAT)
    (hg : k.lastGood = some g) (hlt : |q - g| < k.minStep) :
    ((state_poll false false now (Sample.val q) k).2 = true ↔
      k.minInterval ≤ now - k.lastUpdateTs) ∧
    (state_poll false false now (Sample.val q) k).1.lastGood = some g ∧
    (k.minInterval ≤ now - k.lastUpdateTs →
      (state_poll false false now (Sample.val q) k).1.state = PVal.vnum q) := by
  by_cases hc : k.minInterval ≤ now - k.lastUpdateTs <;>
    simp [state_poll, ht, hg, not_le.mpr hlt, hc, Sample.toPVal]

/-- C5: `state_poll` on a DisplayFloat key accepts a valid sample
immediately (new last good value, redraw, displayed value, timestamp)
when it is the first valid value or differs from the last good value by
at least `min_step`; a valid sample below the step threshold redraws
exactly when `min_interval` has elapsed since the last redraw, keeping
the last good value and displaying the current value; and on the
concrete scenario (`min_step = 0.5`, `min_interval = 1.0`, samples
`1.0, 1.2, 1.6` then `1.6` repeated every `0.1 s` from `t = 10.0`) the
display updates exactly at `t = 10.0` with `1.0`, at `t = 10.2` with
`1.6`, and at `t = 11.2` with `1.6` once a full second has elapsed with
no qualifying change. -/
theorem haldeck_C5 :
    (∀ (k : KeyS) (now q : ℚ), k.ktype = KeyTypes.DISPLAY_FLOAT →
      (k.lastGood = none ∨ ∃ g, k.lastGood = some g ∧ k.minStep ≤ |q - g|) →
      (state_poll false false now (Sample.val q) k).1.lastGood = some q ∧
      (state_poll false false now (Sample.val q) k).2 = true ∧
      (state_poll false false now (Sample.val q) k).1.state = PVal.vnum q ∧
      (state_poll false false now (Sample.val q) k).1.lastUpdateTs = now) ∧
    (∀ (k : KeyS) (now q g : ℚ), k.ktype = KeyTypes.DISPLAY_FLOAT →
      k.lastGood = some g → |q - g| < k.minStep →
      ((state_poll false false now (Sample.val q) k).2 = true ↔
        k.minInterval ≤ now - k.lastUpdateTs) ∧
      (state_poll false false now (Sample.val q) k).1.lastGood = some g ∧
      (k.minInterval ≤ now - k.lastUpdateTs →
        (state_poll false false now (Sample.val q) k).1.state = PVal.vnum q)) ∧
    (poll_run c5polls (mkKey KeyTypes.DISPLAY_FLOAT c5cfg)).2 =
      [(10, PVal.vnum 1), (51/5, PVal.vnum (8/5)), (56/5, PVal.vnum (8/5))] := by
  refine ⟨state_poll_df_accept, state_poll_df_small, ?_⟩
  norm_num [poll_run, c5polls, List.foldl, state_poll, mkKey, c5cfg, cfg0, rat_abs_eval,
    Sample.isValid, Sample.toPVal]

/-- C5 witness: the first-valid-sample acceptance applied at the concrete
scenario key at `t = 10.0`, value `1.0`. -/
theorem haldeck_C5_witness :
    (state_poll false false 10 (Sample.val 1) (mkKey KeyTypes.DISPLAY_FLOAT c5cfg)).1.lastGood = some 1 ∧
    (state_poll false false 10 (Sample.val 1) (mkKey KeyTypes.DISPLAY_FLOAT c5cfg)).2 = true :=
  ⟨(haldeck_C5.1 (mkKey KeyTypes.DISPLAY_FLOAT c5cfg) 10 1 rfl (Or.inl rfl)).1,
   (haldeck_C5.1 (mkKey KeyTypes.DISPLAY_FLOAT c5cfg) 10 1 rfl (Or.inl rfl)).2.1⟩

/-! ## Claim C1 -/

lemma dGet_eq_none_of_not_mem (dk : ℕ × ℕ) (d : List ((ℕ × ℕ) × ℤ))
    (h : dk ∉ d.map Prod.fst) : dGet dk d = none := by
  induction d with
  | nil => rfl
  | cons hd t ih =>
      rcases hd with ⟨k, v⟩
      simp only [List.map_cons, List.mem_cons] at h
      push_neg at h
      simp [dGet, Ne.symm h.1, ih h.2]

lemma dGet_dPop_nodup (dk : ℕ × ℕ) (d : List ((ℕ × ℕ) × ℤ))
    (hnd : (d.map Prod.fst).Nodup) : dGet dk ((dPop dk d).2) = none := by
  induction d with
  | nil => rfl
  | cons hd t ih =>
      rcases hd with ⟨k, v⟩
      simp only [List.map_cons, List.nodup_cons] at hnd
      by_cases hk : k = dk
      · subst hk
        simp [dPop, dGet_eq_none_of_not_mem k t hnd.1]
      · simp [dPop, dGet, hk, ih hnd.2]

lemma switch_clears (s : DeckSys) (target : ℤ) (force : Bool)
    (h1 : 1 ≤ target) (h2 : target ≤ MAX_PAGES) :
    (switch_to_page target force s).1.pressOrigin = [] := by
  have hrange : ¬(target < 1 ∨ target > MAX_PAGES) := by
    simp only [MAX_PAGES] at *
    omega
  unfold switch_to_page
  rw [if_neg hrange]
  dsimp only
  split
  · rfl
  · split
    · rfl
    · split
      · rfl
      · rfl

/-- C1: a press records the page active at press time in the press-origin
table and targets that page; the matching release resolves against the
recorded page and removes the entry (gone for good when the table keys
are distinct, which dict semantics guarantee); a release with no entry
resolves against the page current at release time and leaves the table
unchanged; the hardware-callback path and the polling-fallback path are
one and the same function of the state; and every in-range page switch
clears the whole table, which is what makes the fallback case the one
taken after an intervening switch. -/
theorem haldeck_C1 (s : DeckSys) (d i : ℕ) :
    ((key_change_callback d i true s).2.1 = s.currentPage ∧
     (key_change_callback d i true s).1.pressOrigin =
       dInsert (d, i) s.currentPage s.pressOrigin) ∧
    (∀ p : ℤ, dGet (d, i) s.pressOrigin = some p →
      (key_change_callback d i false s).2.1 = p ∧
      (key_change_callback d i false s).1.pressOrigin = (dPop (d, i) s.pressOrigin).2 ∧
      ((s.pressOrigin.map Prod.fst).Nodup →
        dGet (d, i) (key_change_callback d i false s).1.pressOrigin = none)) ∧
    (dGet (d, i) s.pressOrigin = none →
      (key_change_callback d i false s).2.1 = s.currentPage ∧
      (key_change_callback d i false s).1.pressOrigin = s.pressOrigin) ∧
    (∀ st : Bool, key_change_callback d i st s = handle_key_event d i st s) ∧
    (∀ (target : ℤ) (force : Bool), 1 ≤ target → target ≤ MAX_PAGES →
      (switch_to_page target force s).1.pressOrigin = []) := by
  refine ⟨⟨rfl, rfl⟩, ?_, ?_, fun st => rfl, fun t f h1 h2 => switch_clears s t f h1 h2⟩
  · intro p hp
    refine ⟨?_, rfl, ?_⟩
    · simp [key_change_callback, dPop_fst, hp]
    · intro hnd
      exact dGet_dPop_nodup (d, i) s.pressOrigin hnd
  · intro hp
    constructor
    · simp [key_change_callback, dPop_fst, hp]
    · simp [key_change_callback, dPop_none _ _ hp]

/-- C1 witness: on a system that switched from page 2 to page 4 while the
key was held, the release still resolves to page 2; and a page switch
clears the table. -/
theorem haldeck_C1_witness :
    (key_change_callback 0 0 false sC1).2.1 = 2 ∧
    (switch_to_page 2 false sC1).1.pressOrigin = [] :=
  ⟨((haldeck_C1 sC1 0 0).2.1 2 (by decide)).1,
   (haldeck_C1 sC1 0 0).2.2.2.2 2 false (by decide) (by decide)⟩

/-! ## Claim C2 -/

/-- C2 counterexample: with the system on normal page 1 whose only key is
held (state true) and one press-origin entry outstanding,
`switch_to_page 1 false` is not a no-op: the press-origin table is
cleared, the key's state is reset to false, and a render is pushed. -/
theorem haldeck_C2_counterexample :
    sC2.currentPage = 1 ∧
    (pGet 1 sC2.keysByPage).map (List.map KeyS.state) = some [PVal.vbool true] ∧
    ((1 : ℤ) ∉ sC2.splashPages) ∧
    (switch_to_page 1 false sC2).1.pressOrigin ≠ sC2.pressOrigin ∧
    (pGet 1 (switch_to_page 1 false sC2).1.keysByPage).map (List.map KeyS.state) =
      some [PVal.vbool false] ∧
    (switch_to_page 1 false sC2).2 ≠ [] := by decide

/-- C2 amended: `switch_to_page(target, force=false)` with `target` a
normal page equal to the current page leaves the active page pointer and
the feedback pin unchanged and pushes no page-switch re-render, but it
still resets every key of the current page (state to false, enabled flag
kept, one reset redraw per key) and clears the press-origin table; with
`force=true` it additionally re-renders every key of the target page. -/
theorem haldeck_C2_amended (s : DeckSys) (ks : List KeyS)
    (hks : pGet s.currentPage s.keysByPage = some ks)
    (h1 : 1 ≤ s.currentPage) (h2 : s.currentPage ≤ MAX_PAGES)
    (hsp : s.currentPage ∉ s.splashPages) :
    ((switch_to_page s.currentPage false s).1.currentPage = s.currentPage ∧
     (switch_to_page s.currentPage false s).1.halPageCurrent = s.halPageCurrent ∧
     (switch_to_page s.currentPage false s).1.pressOrigin = [] ∧
     pGet s.currentPage (switch_to_page s.currentPage false s).1.keysByPage =
       some (ks.map fun k => (reset false k).1) ∧
     (∀ k ∈ ks, (reset false k).1.state = PVal.vbool false ∧
       (reset false k).1.enabled = k.enabled) ∧
     (switch_to_page s.currentPage false s).2 =
       (List.range ks.length).map (REv.resetRender s.currentPage)) ∧
    ((switch_to_page s.currentPage true s).1.currentPage = s.currentPage ∧
     (switch_to_page s.currentPage true s).2 =
       (List.range ks.length).map (REv.resetRender s.currentPage) ++
       (List.range ks.length).map (REv.keyUpdate s.currentPage)) := by
  have hrange : ¬(s.currentPage < 1 ∨ s.currentPage > MAX_PAGES) := by
    simp only [MAX_PAGES] at *
    omega
  constructor
  · unfold switch_to_page
    rw [if_neg hrange]
    dsimp only
    rw [hks]
    dsimp only
    rw [if_neg hsp, pGet_pSet_self]
    dsimp only
    rw [if_pos ⟨rfl, rfl⟩]
    refine ⟨rfl, rfl, rfl, ?_, ?_, rfl⟩
    · exact pGet_pSet_self _ _ _
    · intro k _
      exact ⟨reset_state false k, reset_enabled false k⟩
  · unfold switch_to_page
    rw [if_neg hrange]
    dsimp only
    rw [hks]
    dsimp only
    rw [if_neg hsp, pGet_pSet_self]
    dsimp only
    rw [if_neg (by simp)]
    refine ⟨rfl, ?_⟩
    simp [List.length_map]

/-- C2 witness: the amended behaviour at a concrete one-key page-4
system. -/
theorem haldeck_C2_witness :
    (switch_to_page 4 false sC1).1.currentPage = 4 ∧
    (switch_to_page 4 false sC1).1.pressOrigin = [] :=
  ⟨(haldeck_C2_amended sC1 [mkKey .MOMENTARY cfg0] rfl (by decide) (by decide)
      (by decide)).1.1,
   (haldeck_C2_amended sC1 [mkKey .MOMENTARY cfg0] rfl (by decide) (by decide)
      (by decide)).1.2.2.1⟩

/-! ## Claim C3 -/

/-- C3 counterexample: switching to the in-range, unconfigured page 3
while on normal page 1 with a held key and an outstanding press-origin
entry is not a no-op apart from logging: the press-origin table is
cleared and the current page's key is reset to false. -/
theorem haldeck_C3_counterexample :
    (1 : ℤ) ≤ 3 ∧ (3 : ℤ) ≤ MAX_PAGES ∧
    ((3 : ℤ) ∉ sC3.splashPages) ∧ pGet 3 sC3.keysByPage = none ∧
    (switch_to_page 3 false sC3).1.pressOrigin ≠ sC3.pressOrigin ∧
    (pGet 1 (switch_to_page 3 false sC3).1.keysByPage).map (List.map KeyS.state) =
      some [PVal.vbool false] ∧
    (pGet 1 sC3.keysByPage).map (List.map KeyS.state) = some [PVal.vbool true] := by decide

/-- C3 amended: `switch_to_page` to an in-range target that is neither a
normal nor a splash page leaves the active page pointer and the feedback
pin unchanged and pushes no page render, but it still resets every key of
the current page (state to false, one reset redraw per key) and clears
the press-origin table. -/
theorem haldeck_C3_amended (s : DeckSys) (target : ℤ) (force : Bool)
    (h1 : 1 ≤ target) (h2 : target ≤ MAX_PAGES)
    (hsp : target ∉ s.splashPages)
    (hun : pGet target s.keysByPage = none) :
    (switch_to_page target force s).1.currentPage = s.currentPage ∧
    (switch_to_page target force s).1.halPageCurrent = s.halPageCurrent ∧
    (switch_to_page target force s).1.pressOrigin = [] ∧
    pGet s.currentPage (switch_to_page target force s).1.keysByPage =
      (pGet s.currentPage s.keysByPage).map (fun ks => ks.map fun k => (reset false k).1) ∧
    (switch_to_page target force s).2 =
      (match pGet s.currentPage s.keysByPage with
       | some ks => (List.range ks.length).map (REv.resetRender s.currentPage)
       | none => []) := by
  have hrange : ¬(target < 1 ∨ target > MAX_PAGES) := by
    simp only [MAX_PAGES] at *
    omega
  unfold switch_to_page
  rw [if_neg hrange]
  dsimp only
  rw [if_neg hsp]
  cases hold : pGet s.currentPage s.keysByPage with
  | none =>
      dsimp only
      rw [hun]
      dsimp only
      rw [hold]
      exact ⟨rfl, rfl, rfl, rfl, rfl⟩
  | some ks =>
      dsimp only
      have hne : target ≠ s.currentPage := by
        intro h
        rw [h, hold] at hun
        exact Option.noConfusion hun
      rw [pGet_pSet_ne _ _ _ _ hne, hun]
      exact ⟨rfl, rfl, rfl, pGet_pSet_self _ _ _, rfl⟩

/-- C3 witness: switching the concrete page-4 system to the unconfigured
page 9 keeps the pointer on page 4 and clears the table. -/
theorem haldeck_C3_witness :
    (switch_to_page 9 false sC1).1.currentPage = sC1.currentPage ∧
    (switch_to_page 9 false sC1).1.pressOrigin = [] :=
  ⟨(haldeck_C3_amended sC1 9 false (by decide) (by decide) (by decide) rfl).1,
   (haldeck_C3_amended sC1 9 false (by decide) (by decide) (by decide) rfl).2.2.1⟩

/-! ## Claim C8 -/

lemma floor_toNat_le (z : ℚ) (hz : 0 ≤ z) : ((⌊z⌋.toNat : ℚ)) ≤ z := by
  have hcast : ((⌊z⌋.toNat : ℚ)) = ((⌊z⌋ : ℤ) : ℚ) := by
    exact_mod_cast congrArg (fun n : ℤ => (n : ℚ))
      (Int.toNat_of_nonneg (Int.floor_nonneg.mpr hz))
  rw [hcast]
  exact Int.floor_le z

lemma lt_floor_toNat_add_one (z : ℚ) (hz : 0 ≤ z) : z < ((⌊z⌋.toNat : ℚ)) + 1 := by
  have hcast : ((⌊z⌋.toNat : ℚ)) = ((⌊z⌋ : ℤ) : ℚ) := by
    exact_mod_cast congrArg (fun n : ℤ => (n : ℚ))
      (Int.toNat_of_nonneg (Int.floor_nonneg.mpr hz))
  rw [hcast]
  exact Int.lt_floor_add_one z

lemma fit_wh_spec (fullW fullH imgW imgH : ℕ) (hw : 0 < fullW) (hh : 0 < fullH)
    (hiw : 0 < imgW) (hih : 0 < imgH) :
    (fit_wh fullW fullH imgW imgH).1 ≤ fullW ∧
    (fit_wh fullW fullH imgW imgH).2 ≤ fullH ∧
    ((fit_wh fullW fullH imgW imgH).1 = fullW ∨
     (fit_wh fullW fullH imgW imgH).2 = fullH) ∧
    (((fit_wh fullW fullH imgW imgH).2 * imgW ≤ (fit_wh fullW fullH imgW imgH).1 * imgH ∧
      (fit_wh fullW fullH imgW imgH).1 * imgH < ((fit_wh fullW fullH imgW imgH).2 + 1) * imgW) ∨
     ((fit_wh fullW fullH imgW imgH).1 * imgH ≤ (fit_wh fullW fullH imgW imgH).2 * imgW ∧
      (fit_wh fullW fullH imgW imgH).2 * imgW < ((fit_wh fullW fullH imgW imgH).1 + 1) * imgH)) := by
  have hhQ : (0 : ℚ) < (fullH : ℚ) := by exact_mod_cast hh
  have hiwQ : (0 : ℚ) < (imgW : ℚ) := by exact_mod_cast hiw
  have hihQ : (0 : ℚ) < (imgH : ℚ) := by exact_mod_cast hih
  by_cases hcmp : (fullW : ℚ) / (fullH : ℚ) < (imgW : ℚ) / (imgH : ℚ)
  · have hxe : (fullW : ℚ) / ((imgW : ℚ) / (imgH : ℚ)) = (fullW : ℚ) * imgH / imgW :=
      div_div_eq_mul_div _ _ _
    have hfit : fit_wh fullW fullH imgW imgH =
        (fullW, (⌊(fullW : ℚ) * imgH / imgW⌋).toNat) := by
      simp only [fit_wh, if_pos hcmp, hxe]
    rw [hfit]
    dsimp only
    have hq0 : (0 : ℚ) ≤ (fullW : ℚ) * imgH / imgW := by positivity
    have hle := floor_toNat_le ((fullW : ℚ) * imgH / imgW) hq0
    have hlt := lt_floor_toNat_add_one ((fullW : ℚ) * imgH / imgW) hq0
    have hxH : (fullW : ℚ) * imgH / imgW < (fullH : ℚ) := by
      rw [div_lt_iff₀ hiwQ]
      have h2 := (div_lt_div_iff₀ hhQ hihQ).mp hcmp
      linarith
    refine ⟨le_refl _, ?_, Or.inl rfl, Or.inl ⟨?_, ?_⟩⟩
    · exact_mod_cast le_of_lt (lt_of_le_of_lt hle hxH)
    · exact_mod_cast (le_div_iff₀ hiwQ).mp hle
    · exact_mod_cast (div_lt_iff₀ hiwQ).mp hlt
  · have hye : (fullH : ℚ) * ((imgW : ℚ) / (imgH : ℚ)) = (fullH : ℚ) * imgW / imgH :=
      (mul_div_assoc _ _ _).symm
    have hfit : fit_wh fullW fullH imgW imgH =
        ((⌊(fullH : ℚ) * imgW / imgH⌋).toNat, fullH) := by
      simp only [fit_wh, if_neg hcmp, hye]
    rw [hfit]
    dsimp only
    have hq0 : (0 : ℚ) ≤ (fullH : ℚ) * imgW / imgH := by positivity
    have hle := floor_toNat_le ((fullH : ℚ) * imgW / imgH) hq0
    have hlt := lt_floor_toNat_add_one ((fullH : ℚ) * imgW / imgH) hq0
    have hyW : (fullH : ℚ) * imgW / imgH ≤ (fullW : ℚ) := by
      rw [div_le_iff₀ hihQ]
      have h2 := (div_le_div_iff₀ hihQ hhQ).mp (not_lt.mp hcmp)
      linarith
    refine ⟨?_, le_refl _, Or.inr rfl, Or.inr ⟨?_, ?_⟩⟩
    · exact_mod_cast le_trans hle hyW
    · exact_mod_cast (le_div_iff₀ hihQ).mp hle
    · exact_mod_cast (div_lt_iff₀ hihQ).mp hlt

lemma splash_tile_mem (rows cols keyW keyH sx sy r c : ℕ)
    (hr : r < rows) (hc : c < cols) :
    (r * cols + c, splash_tile keyW keyH sx sy r c) ∈
      splash_tiles rows cols keyW keyH sx sy := by
  simp only [splash_tiles, List.mem_flatMap, List.mem_map, List.mem_range]
  exact ⟨r, hr, c, hc, rfl⟩

/-- C8: on an `rows x cols` grid with per-key size `keyW x keyH` and gaps
`sx, sy`, the splash tiler builds a virtual canvas of size
`cols*keyW + (cols-1)*sx` by `rows*keyH + (rows-1)*sy`; the scaled image
fits entirely within the canvas, exactly filling one axis (never
stretched: its sides keep the source aspect ratio up to the one-pixel
truncation of the floor), and is centered by integer-halved offsets on
the solid-background canvas; and every key index `r*cols + c` gets the
tile cropped at `(c*(keyW+sx), r*(keyH+sy))` of size `keyW x keyH`. -/
theorem haldeck_C8 (rows cols keyW keyH sx sy imgW imgH : ℕ)
    (hr : 0 < rows) (hc : 0 < cols) (hkw : 0 < keyW) (hkh : 0 < keyH)
    (hiw : 0 < imgW) (hih : 0 < imgH) :
    (load_splash_layout rows cols keyW keyH sx sy imgW imgH).fullW =
      cols * keyW + (cols - 1) * sx ∧
    (load_splash_layout rows cols keyW keyH sx sy imgW imgH).fullH =
      rows * keyH + (rows - 1) * sy ∧
    (load_splash_layout rows cols keyW keyH sx sy imgW imgH).newW ≤
      (load_splash_layout rows cols keyW keyH sx sy imgW imgH).fullW ∧
    (load_splash_layout rows cols keyW keyH sx sy imgW imgH).newH ≤
      (load_splash_layout rows cols keyW keyH sx sy imgW imgH).fullH ∧
    ((load_splash_layout rows cols keyW keyH sx sy imgW imgH).newW =
       (load_splash_layout rows cols keyW keyH sx sy imgW imgH).fullW ∨
     (load_splash_layout rows cols keyW keyH sx sy imgW imgH).newH =
       (load_splash_layout rows cols keyW keyH sx sy imgW imgH).fullH) ∧
    (load_splash_layout rows cols keyW keyH sx sy imgW imgH).offX =
      ((load_splash_layout rows cols keyW keyH sx sy imgW imgH).fullW -
       (load_splash_layout rows cols keyW keyH sx sy imgW imgH).newW) / 2 ∧
    (load_splash_layout rows cols keyW keyH sx sy imgW imgH).offY =
      ((load_splash_layout rows cols keyW keyH sx sy imgW imgH).fullH -
       (load_splash_layout rows cols keyW keyH sx sy imgW imgH).newH) / 2 ∧
    (((load_splash_layout rows cols keyW keyH sx sy imgW imgH).newH * imgW ≤
        (load_splash_layout rows cols keyW keyH sx sy imgW imgH).newW * imgH ∧
      (load_splash_layout rows cols keyW keyH sx sy imgW imgH).newW * imgH <
        ((load_splash_layout rows cols keyW keyH sx sy imgW imgH).newH + 1) * imgW) ∨
     ((load_splash_layout rows cols keyW keyH sx sy imgW imgH).newW * imgH ≤
        (load_splash_layout rows cols keyW keyH sx sy imgW imgH).newH * imgW ∧
      (load_splash_layout rows cols keyW keyH sx sy imgW imgH).newH * imgW <
        ((load_splash_layout rows cols keyW keyH sx sy imgW imgH).newW + 1) * imgH)) ∧
    (∀ r c : ℕ, r < rows → c < cols →
      (r * cols + c, splash_tile keyW keyH sx sy r c) ∈
        splash_tiles rows cols keyW keyH sx sy ∧
      (splash_tile keyW keyH sx sy r c).left = c * (keyW + sx) ∧
      (splash_tile keyW keyH sx sy r c).top = r * (keyH + sy) ∧
      (splash_tile keyW keyH sx sy r c).right = c * (keyW + sx) + keyW ∧
      (splash_tile keyW keyH sx sy r c).bottom = r * (keyH + sy) + keyH) := by
  have hW0 : 0 < cols * keyW + sx * (cols - 1) :=
    lt_of_lt_of_le (Nat.mul_pos hc hkw) (Nat.le_add_right _ _)
  have hH0 : 0 < rows * keyH + sy * (rows - 1) :=
    lt_of_lt_of_le (Nat.mul_pos hr hkh) (Nat.le_add_right _ _)
  obtain ⟨hA, hB, hC, hD⟩ :=
    fit_wh_spec (cols * keyW + sx * (cols - 1)) (rows * keyH + sy * (rows - 1))
      imgW imgH hW0 hH0 hiw hih
  refine ⟨by simp [load_splash_layout, Nat.mul_comm],
          by simp [load_splash_layout, Nat.mul_comm],
          hA, hB, hC, rfl, rfl, hD, ?_⟩
  intro r c hrr hcc
  exact ⟨splash_tile_mem rows cols keyW keyH sx sy r c hrr hcc, rfl, rfl, rfl, rfl⟩

/-- C8 witness: the layout facts at a concrete 2 x 3 deck with 72-pixel
keys, 12-pixel gaps and a 100 x 60 source image. -/
theorem haldeck_C8_witness :
    (load_splash_layout 2 3 72 72 12 12 100 60).fullW = 3 * 72 + (3 - 1) * 12 ∧
    (load_splash_layout 2 3 72 72 12 12 100 60).newW ≤
      (load_splash_layout 2 3 72 72 12 12 100 60).fullW ∧
    (1 * 3 + 2, splash_tile 72 72 12 12 1 2) ∈ splash_tiles 2 3 72 72 12 12 :=
  ⟨(haldeck_C8 2 3 72 72 12 12 100 60 (by norm_num) (by norm_num) (by norm_num)
      (by norm_num) (by norm_num) (by norm_num)).1,
   (haldeck_C8 2 3 72 72 12 12 100 60 (by norm_num) (by norm_num) (by norm_num)
      (by norm_num) (by norm_num) (by norm_num)).2.2.1,
   ((haldeck_C8 2 3 72 72 12 12 100 60 (by norm_num) (by norm_num) (by norm_num)
      (by norm_num) (by norm_num) (by norm_num)).2.2.2.2.2.2.2.2 1 2
      (by norm_num) (by norm_num)).1⟩

end HalDeck
